import Mathlib

/-
A verification development for the esadmin Elasticsearch administration
module (esadmin/elasticsearchadmin.py).  The Python source is embedded
shallowly: pure functions become Lean functions, the stateful version
cache becomes explicit state passing, fallible operations return Option
or an explicit result type.  Machine floating point in fmt_bytes is
idealised to exact arithmetic, as noted at the definition.
-/

namespace ESAdmin

/-- Python values as they occur in this module: JSON-decoded settings
values and the results of booleanise.  Python equality quirks such as
True == 1 are not modelled; the values flowing through these functions
are booleans and strings. -/
inductive PyVal where
  | bool (b : Bool)
  | str (s : String)
  | int (n : Int)
  deriving DecidableEq, Repr

/-- ASCII lowering of a string, character by character; models str.lower()
on the ASCII strings this module compares. -/
def pyLower (s : String) : String :=
  String.mk (s.data.map Char.toLower)

/-- Models str(b) for the value shapes of PyVal: Python renders True and
False capitalised, strings render as themselves, integers in decimal. -/
def pystr : PyVal → String
  | .bool true => "True"
  | .bool false => "False"
  | .str s => s
  | .int n => toString n

/-- Embeds booleanise: render the argument to text, compare its lowering
against "true" and "false", return the matching Bool, otherwise return
the argument unchanged. -/
def booleanise (b : PyVal) : PyVal :=
  if pyLower (pystr b) = "true" then .bool true
  else if pyLower (pystr b) = "false" then .bool false
  else b

/-- Decoded JSON values, as produced by json.loads. -/
inductive Json where
  | null
  | bool (b : Bool)
  | num (n : Int)
  | str (s : String)
  | arr (elems : List Json)
  | obj (fields : List (String × Json))

/-- HTTP response as seen by Connection.request: a status code and a raw
body string. -/
structure HttpResponse where
  status : Nat
  body : String

/-- Outcome of Connection.request.  httpError carries the HttpError
message; decodeError carries the raw response body, which the code logs
at error severity before re-raising the ValueError. -/
inductive ReqResult where
  | ok (payload : Json)
  | httpError (msg : String)
  | decodeError (loggedBody : String)

/-- Models the %r rendering of the request data argument: None renders as
None, and a string renders between single quotes (escaping of special
characters inside the string is not needed for the strings considered
here). -/
def pyReprData : Option String → String
  | none => "None"
  | some s => "\x27" ++ (s ++ "\x27")

/-- Embeds the HttpError message built by Connection.request from the
format string Expected HTTP 200 - got HTTP %d: %s %s (data: %r). -/
def httpErrorMessage (status : Nat) (method path : String)
    (data : Option String) : String :=
  "Expected HTTP 200 - got HTTP " ++
    (toString status ++
      (": " ++ (method ++ (" " ++ (path ++
        (" (data: " ++ (pyReprData data ++ ")")))))))

/-- The substring-containment relation used to state what an error
message includes. -/
def containsSub (s sub : String) : Prop :=
  ∃ a b : String, s = a ++ (sub ++ b)

/-- Embeds Connection.request over an abstract json.loads (a parser
returning none where json.loads raises ValueError): a non-200 status
raises HttpError before the body is read; on 200 the body is decoded,
an undecodable empty body is replaced by the empty object (the value
json.loads gives for a string holding an empty JSON object), and an
undecodable non-empty body is logged and the ValueError re-raised. -/
def request (loads : String → Option Json) (resp : HttpResponse)
    (method path : String) (data : Option String) : ReqResult :=
  if resp.status ≠ 200 then
    .httpError (httpErrorMessage resp.status method path data)
  else
    match loads resp.body with
    | some payload => .ok payload
    | none =>
      if resp.body.length = 0 then .ok (.obj [])
      else .decodeError resp.body

/-- Association-list lookup modelling Python dict access on the decoded
JSON objects (keys in such objects are unique). -/
def alookup : List (String × PyVal) → String → Option PyVal
  | [], _ => none
  | (k, v) :: rest, key => if k = key then some v else alookup rest key

/-- The cluster settings key inspected by allocator_disabled. -/
def allocKey : String := "cluster.routing.allocation.disable_allocation"

/-- The persistent and transient scopes of the response to
GET /_cluster/settings. -/
structure ClusterSettings where
  persistent : List (String × PyVal)
  transient : List (String × PyVal)

/-- One iteration of the scope loop in allocator_disabled: if the key is
present in the scope, its booleanised value overwrites the running state
when it is True or False, and leaves the state unchanged otherwise. -/
def allocScan (state : String) (scope : List (String × PyVal)) : String :=
  match alookup scope allocKey with
  | none => state
  | some v =>
    match booleanise v with
    | .bool true => "disabled"
    | .bool false => "enabled"
    | _ => state

/-- Embeds allocator_disabled: the state starts unknown and the scopes
are scanned in the order persistent, transient. -/
def allocator_disabled (settings : ClusterSettings) : String :=
  allocScan (allocScan "unknown" settings.persistent) settings.transient

/-- The per-index settings key inspected by
get_index_translog_disable_flush. -/
def flushKey : String := "index.translog.disable_flush"

/-- Embeds get_index_translog_disable_flush over the response to
GET /_settings, modelled as a mapping from index name to that index
settings object (the sub-object the code reads under the settings
field): every index maps to the booleanised value of the
translog-disable-flush key, defaulting to the string unknown when the
key is absent. -/
def get_index_translog_disable_flush
    (settings : List (String × List (String × PyVal))) :
    List (String × PyVal) :=
  settings.map (fun idx =>
    (idx.1, booleanise ((alookup idx.2 flushKey).getD (.str "unknown"))))

/-- Embeds flushing_disabled: the distinct values of the per-index map
(a Python set, modelled by dedup, which preserves membership and
cardinality) decide the one-word answer. -/
def flushing_disabled
    (settings : List (String × List (String × PyVal))) : String :=
  let disabled := get_index_translog_disable_flush settings
  let states := (disabled.map Prod.snd).dedup
  if 1 < states.length ∧ PyVal.bool true ∈ states then "some"
  else if states.length = 1 then
    if PyVal.bool true ∈ states then "disabled" else "enabled"
  else "unknown"

/-- Embeds the sanitization step of my_node_id: drop every character of
the reported version string that is not a digit, a dot or a hyphen. -/
def sanitized_version (s : String) : String :=
  String.mk (s.data.filter (fun c => c.isDigit || c = '.' || c = '-'))

/-- Splits a character list at every dot or hyphen, keeping empty
pieces, as re.split with the class of those two characters does. -/
def splitSeps : List Char → List (List Char)
  | [] => [[]]
  | c :: cs =>
    let r := splitSeps cs
    if c = '.' || c = '-' then [] :: r
    else
      match r with
      | [] => [[c]]
      | g :: gs => (c :: g) :: gs

/-- Models int() on a split piece: a nonempty all-digit piece parses to
its decimal value, and anything else (after sanitization only the empty
piece can occur) raises ValueError, modelled as none. -/
def pyIntDigits (cs : List Char) : Option Nat :=
  if cs ≠ [] ∧ cs.all Char.isDigit then
    some (cs.foldl (fun a c => a * 10 + (c.toNat - 48)) 0)
  else none

/-- Embeds the version computation of my_node_id: sanitize the reported
version string, split on dots and hyphens, and parse every piece as an
integer. -/
def parse_version (s : String) : Option (List Nat) :=
  (splitSeps (sanitized_version s).data).mapM pyIntDigits

/-- Python tuple comparison on integer tuples, as used for
es_version >= (1, 0, 0): lexicographic, a strict prefix comparing
smaller than the longer tuple. -/
def tupleGE : List Nat → List Nat → Bool
  | _, [] => true
  | [], _ :: _ => false
  | x :: xs, y :: ys =>
    if y < x then true
    else if x < y then false
    else tupleGE xs ys

/-- The node-identity endpoint my_node_id queries for a given version
tuple: Elasticsearch 1.0.0 replaced /_cluster/nodes with /_nodes. -/
def my_node_id_path (v : List Nat) : String :=
  if tupleGE v [1, 0, 0] then "/_nodes/_local"
  else "/_cluster/nodes/_local"

/-- Connection state relevant to my_node_id: the lazily computed version
tuple, none until first cached. -/
structure Conn where
  es_version : Option (List Nat)

/-- One call of my_node_id against a fixed root response: returns the
updated connection, the node endpoint queried and whether the root
endpoint was fetched on this call; none models the ValueError from int()
on an unparseable version. -/
def my_node_id_step (c : Conn) (rootVersion : String) :
    Option (Conn × String × Bool) :=
  match c.es_version with
  | some v => some (⟨some v⟩, my_node_id_path v, false)
  | none =>
    match parse_version rootVersion with
    | none => none
    | some v => some (⟨some v⟩, my_node_id_path v, true)

/-- Repeated my_node_id calls on one connection, counting root endpoint
fetches. -/
def my_node_id_calls (c : Conn) (rootVersion : String) :
    Nat → Option (Conn × Nat)
  | 0 => some (c, 0)
  | n + 1 =>
    match my_node_id_step c rootVersion with
    | none => none
    | some (c2, _, fetched) =>
      match my_node_id_calls c2 rootVersion n with
      | none => none
      | some (c3, k) => some (c3, (if fetched then 1 else 0) + k)

/-- Embeds TabularPrinter.nontruncating_zip at the two-sequence arity
row uses: the index-driven loop stops at the first index where every
argument sequence is exhausted and pads the shorter sequence with None
(once the first sequence is exhausted, the remaining positions pair
None with the rest of the second). -/
def nontruncating_zip {α β : Type} :
    List α → List β → List (Option α × Option β)
  | [], ys => ys.map (fun y => (none, some y))
  | x :: xs, [] => (some x, none) :: nontruncating_zip xs []
  | x :: xs, y :: ys => (some x, some y) :: nontruncating_zip xs ys

/-- Python 2 max over the optional widths nontruncating_zip produces:
None compares below every integer, so a None component loses.  Two None
components never occur in the zip output; that case is given 0. -/
def pymax : Option Nat → Option Nat → Nat
  | some x, some y => max x y
  | some x, none => x
  | none, some y => y
  | none, none => 0

/-- The column-widths update performed by TabularPrinter.row: zip the
running widths with the widths of the new row without truncation and
take the per-position maximum. -/
def update_widths (old new : List Nat) : List Nat :=
  (nontruncating_zip old new).map (fun p => pymax p.1 p.2)

/-- State of a TabularPrinter: margin and separator strings, the running
per-column maximum widths, the maximum column count seen, the row count
and the buffered rows. -/
structure TabularPrinter where
  margin : String
  separator : String
  column_widths : List Nat
  max_columns : Nat
  row_count : Nat
  rows : List (List String)

/-- Default margin of four spaces. -/
def DEFAULT_MARGIN : String := "    "

/-- Default separator of two spaces. -/
def DEFAULT_SEPARATOR : String := "  "

/-- A freshly constructed TabularPrinter. -/
def TabularPrinter.init (margin separator : String) : TabularPrinter :=
  ⟨margin, separator, [], 0, 0, []⟩

/-- Embeds TabularPrinter.row on columns already rendered to text:
append the row, bump the row count, update the running widths through
the nontruncating zip and track the maximum column count. -/
def TabularPrinter.row (tp : TabularPrinter) (columns : List String) :
    TabularPrinter :=
  { tp with
    rows := tp.rows ++ [columns]
    row_count := tp.row_count + 1
    column_widths :=
      update_widths tp.column_widths (columns.map String.length)
    max_columns := max tp.max_columns columns.length }

/-- A sequence of row calls starting from a given printer state. -/
def addRows (tp : TabularPrinter) (rss : List (List String)) :
    TabularPrinter :=
  rss.foldl TabularPrinter.row tp

/-- The invariant every reachable TabularPrinter state satisfies: the
widths sequence is long and large enough for every buffered row, and
the tracked maximum column count is within the widths length. -/
def WidthsOk (tp : TabularPrinter) : Prop :=
  tp.max_columns ≤ tp.column_widths.length ∧
  ∀ r ∈ tp.rows, r.length ≤ tp.column_widths.length ∧
    ∀ i, (r.map String.length).getD i 0 ≤ tp.column_widths.getD i 0

/-- An output stream together with the Python 2 soft-space flag the
print statement keeps on each file: direct writes leave the flag alone,
printed items consult and set it, a printed newline clears it. -/
structure OutStream where
  content : String
  softspace : Bool

/-- file.write as used by output: append text, soft-space flag
untouched. -/
def writeStr (st : OutStream) (s : String) : OutStream :=
  { st with content := st.content ++ s }

/-- C isspace, consulted by the Python 2 print statement on the last
character of a printed string. -/
def pyIsspace (c : Char) : Bool :=
  c = ' ' || c = '\t' || c = '\n' || c = '\x0b' || c = '\x0c' || c = '\r'

/-- The soft-space flag left behind by printing a string item: set
unless the item ends in hard whitespace (whitespace other than the
space character); the last character is read from the reversed
character list. -/
def printSoftspaceAfter (s : String) : Bool :=
  match s.data.reverse with
  | [] => true
  | c :: _ => !(pyIsspace c) || c = ' '

/-- A Python 2 print statement of one string item with a trailing
comma: a pending soft space is written first, then the item, and the
flag is recomputed from the item. -/
def printItem (st : OutStream) (s : String) : OutStream :=
  { content :=
      (if st.softspace then st.content ++ " " else st.content) ++ s
    softspace := printSoftspaceAfter s }

/-- A bare print statement: a newline, and the soft-space flag is
cleared. -/
def printNewline (st : OutStream) : OutStream :=
  { content := st.content ++ "\n", softspace := false }

/-- Left justification to a field width, as the %-Nds format string
built by output produces (no truncation when the text is longer). -/
def ljust (s : String) (w : Nat) : String :=
  s ++ String.mk (List.replicate (w - s.length) ' ')

/-- The column loop of TabularPrinter.output for one row: each column,
paired with its running index, is printed left-justified to that
width of that column with the separator appended.  An out-of-range width read
would be an IndexError in Python; it cannot occur for rows buffered by
row, and is modelled as width zero. -/
def outputRow (widths : List Nat) (separator : String) (st : OutStream)
    (row : List String) : OutStream :=
  row.enum.foldl
    (fun st2 p =>
      printItem st2 (ljust p.2 (widths.getD p.1 0) ++ separator))
    st

/-- Embeds TabularPrinter.output: for each buffered row, write the
margin, print every column, then a bare print for the newline. -/
def TabularPrinter.output (tp : TabularPrinter) (st : OutStream) :
    OutStream :=
  tp.rows.foldl
    (fun st2 row =>
      printNewline
        (outputRow tp.column_widths tp.separator (writeStr st2 tp.margin)
          row))
    st

/-- Concatenation of a list of strings, head first. -/
def joinAll : List String → String
  | [] => ""
  | s :: rest => s ++ joinAll rest

/-- Rendering exactly as the claim words it, for comparison with the
embedded output: per row the margin, then every column left-justified
to its final width followed by the separator, then a newline. -/
def output_spec_render (tp : TabularPrinter) : String :=
  joinAll (tp.rows.map (fun row =>
    tp.margin ++
      joinAll (row.enum.map
        (fun p => ljust p.2 (tp.column_widths.getD p.1 0) ++
          tp.separator)) ++
      "\n"))

/-- The amended per-row rendering: a leading soft space before a column
exactly when the flag says so (false for the first column of a row,
true for every later one), each column left-justified to its width and
followed by the separator. -/
def renderCols (widths : List Nat) (separator : String) :
    Bool → Nat → List String → String
  | _, _, [] => ""
  | lead, i, c :: cs =>
    (if lead then " " else "") ++
      (ljust c (widths.getD i 0) ++
        (separator ++ renderCols widths separator true (i + 1) cs))

/-- The amended whole-table rendering: per row the margin, the columns
with a soft space before every column but the first, a newline. -/
def renderTable (tp : TabularPrinter) : String :=
  joinAll (tp.rows.map (fun row =>
    tp.margin ++ (renderCols tp.column_widths tp.separator false 0 row ++
      "\n")))

/-- The unit abbreviations of fmt_bytes, indexed by the power of 1000
applied. -/
def UNITS : List String := ["bytes", "KB", "MB", "GB", "TB", "PB"]

/-- Fuel-driven floor logarithm base 1000: with fuel at least n this
computes math.floor(math.log(n, 1000)) under exact real arithmetic. -/
def log1000Fuel : Nat → Nat → Nat
  | 0, _ => 0
  | fuel + 1, n => if n < 1000 then 0 else log1000Fuel fuel (n / 1000) + 1

/-- Floor logarithm base 1000 of a positive byte count. -/
def log1000 (n : Nat) : Nat := log1000Fuel n n

/-- Rounds a/b to the nearest integer with ties to even, as the C
printf behind %-formatting rounds the quotient; b must be positive. -/
def roundHalfEven (a b : Nat) : Nat :=
  let q := a / b
  let r := a % b
  if 2 * r < b then q
  else if b < 2 * r then q + 1
  else if q % 2 = 0 then q else q + 1

/-- Decimal rendering of num/den to the given precision: models the
%.*f formatting of the exact quotient (the Python code computes it in
double precision; at the inputs the claims use, the two agree). -/
def fmtFixed (precision num den : Nat) : String :=
  let scaled := roundHalfEven (num * 10 ^ precision) den
  if precision = 0 then toString scaled
  else
    toString (scaled / 10 ^ precision) ++ "." ++
      (String.mk
        (List.replicate
          (precision - (toString (scaled % 10 ^ precision)).length) '0') ++
        toString (scaled % 10 ^ precision))

/-- Embeds fmt_bytes, with math.log, math.pow and the float division
idealised to exact arithmetic over naturals: zero is special-cased to
the literal answer, a positive count is scaled down by the largest
power of 1000 not exceeding it, and a scale beyond the unit list would
be an IndexError, modelled as none. -/
def fmt_bytes (bytes : Nat) (precision : Nat := 2) : Option String :=
  if bytes = 0 then some "0 bytes"
  else
    match UNITS.get? (log1000 bytes) with
    | none => none
    | some unit =>
      some (fmtFixed precision bytes (1000 ^ log1000 bytes) ++ " " ++ unit)

theorem string_length_zero_iff (s : String) : s.length = 0 ↔ s = "" := by
  constructor
  · intro h
    cases s with
    | mk data =>
      cases data with
      | nil => rfl
      | cons c cs => simp [String.length] at h
  · intro h
    subst h
    rfl

theorem containsSub_of (s sub inner : String) (h1 : containsSub s sub)
    (h2 : containsSub sub inner) : containsSub s inner := by
  obtain ⟨a, b, hab⟩ := h1
  obtain ⟨c, d, hcd⟩ := h2
  exact ⟨a ++ c, d ++ b, by simp [hab, hcd, String.append_assoc]⟩

/-- C2: on an HTTP-200 response, request returns the decoded payload when
the body parses, returns the empty object when the body is empty (and
json.loads fails on the empty string), and propagates a decode error,
logging the raw body, when a non-empty body fails to parse. -/
theorem C2_request_decode (loads : String → Option Json)
    (resp : HttpResponse) (method path : String) (data : Option String)
    (h200 : resp.status = 200) :
    (∀ payload, loads resp.body = some payload →
      request loads resp method path data = .ok payload) ∧
    (resp.body = "" → loads "" = none →
      request loads resp method path data = .ok (.obj [])) ∧
    (resp.body ≠ "" → loads resp.body = none →
      request loads resp method path data = .decodeError resp.body) := by
  refine ⟨?_, ?_, ?_⟩
  · intro payload hp
    simp [request, h200, hp]
  · intro hb hl
    simp [request, h200, hb, hl, String.length]
  · intro hb hl
    have hlen : ¬ resp.body.length = 0 := by
      rw [string_length_zero_iff]
      exact hb
    simp [request, h200, hl, hlen]

/-- C2 witness: the empty-body conjunct applied at a concrete 200
response with an empty body and a parser failing on the empty string. -/
theorem C2_request_decode_witness :
    request (fun _ => none) ⟨200, ""⟩ "GET" "/_cluster/state" none =
      .ok (.obj []) :=
  (C2_request_decode (fun _ => none) ⟨200, ""⟩ "GET" "/_cluster/state"
    none rfl).2.1 rfl rfl

/-- C5: request raises HttpError exactly when the status is not 200, and
the message includes the status code, the method, the path, and the
rendered outgoing payload (hence the payload string itself). -/
theorem C5_request_http_error (loads : String → Option Json)
    (resp : HttpResponse) (method path : String) (data : Option String) :
    ((∃ m, request loads resp method path data = .httpError m) ↔
      resp.status ≠ 200) ∧
    (resp.status ≠ 200 →
      request loads resp method path data =
        .httpError (httpErrorMessage resp.status method path data) ∧
      containsSub (httpErrorMessage resp.status method path data)
        (toString resp.status) ∧
      containsSub (httpErrorMessage resp.status method path data) method ∧
      containsSub (httpErrorMessage resp.status method path data) path ∧
      containsSub (httpErrorMessage resp.status method path data)
        (pyReprData data) ∧
      (∀ s, data = some s →
        containsSub (httpErrorMessage resp.status method path data) s)) := by
  constructor
  · constructor
    · rintro ⟨m, hm⟩ hst
      rw [request, if_neg (by simpa using hst)] at hm
      revert hm
      cases hl : loads resp.body with
      | some payload => simp [hl]
      | none =>
        simp only [hl]
        split <;> intro hm <;> cases hm
    · intro hst
      exact ⟨httpErrorMessage resp.status method path data,
        by simp [request, hst]⟩
  · intro hst
    refine ⟨by simp [request, hst], ?_, ?_, ?_, ?_, ?_⟩
    · exact ⟨"Expected HTTP 200 - got HTTP ",
        ": " ++ (method ++ (" " ++ (path ++
          (" (data: " ++ (pyReprData data ++ ")"))))), rfl⟩
    · refine ⟨"Expected HTTP 200 - got HTTP " ++ (toString resp.status ++ ": "),
        " " ++ (path ++ (" (data: " ++ (pyReprData data ++ ")"))), ?_⟩
      simp [httpErrorMessage, String.append_assoc]
    · refine ⟨"Expected HTTP 200 - got HTTP " ++
        (toString resp.status ++ (": " ++ (method ++ " "))),
        " (data: " ++ (pyReprData data ++ ")"), ?_⟩
      simp [httpErrorMessage, String.append_assoc]
    · refine ⟨"Expected HTTP 200 - got HTTP " ++
        (toString resp.status ++ (": " ++ (method ++ (" " ++
          (path ++ " (data: "))))), ")", ?_⟩
      simp [httpErrorMessage, String.append_assoc]
    · intro s hs
      subst hs
      refine containsSub_of _ (pyReprData (some s)) s
        ⟨"Expected HTTP 200 - got HTTP " ++
          (toString resp.status ++ (": " ++ (method ++ (" " ++
            (path ++ " (data: "))))), ")", ?_⟩
        ⟨"\x27", "\x27", rfl⟩
      simp [httpErrorMessage, String.append_assoc]

/-- C5 witness: the non-200 conjunct applied at a concrete 404 response,
extracting the raised message equation. -/
theorem C5_request_http_error_witness :
    request (fun _ => none) ⟨404, "irrelevant"⟩ "PUT" "/_settings"
      (some "payload") =
      .httpError (httpErrorMessage 404 "PUT" "/_settings"
        (some "payload")) :=
  ((C5_request_http_error (fun _ => none) ⟨404, "irrelevant"⟩ "PUT"
    "/_settings" (some "payload")).2 (by decide)).1

theorem list_eq_singleton_of_nodup {α : Type} {l : List α} {v : α}
    (hn : l.Nodup) (hne : l ≠ []) (hall : ∀ x ∈ l, x = v) : l = [v] := by
  cases l with
  | nil => exact absurd rfl hne
  | cons x rest =>
    have hx : x = v := hall x (by simp)
    cases rest with
    | nil => simp [hx]
    | cons y rest2 =>
      have hy : y = v := hall y (by simp)
      rw [List.nodup_cons] at hn
      exact absurd (by simp [hx, hy]) hn.1

theorem one_lt_length_of_mem_ne {α : Type} {l : List α} {a b : α}
    (ha : a ∈ l) (hb : b ∈ l) (hne : a ≠ b) : 1 < l.length := by
  cases l with
  | nil => cases ha
  | cons x rest =>
    cases rest with
    | nil =>
      simp at ha hb
      exact absurd (ha.trans hb.symm) hne
    | cons y rest2 => simp [Nat.lt_add_of_pos_left]

/-- C3: allocator_disabled answers disabled when the resolved value of
the allocation-disable key is true, enabled when false, unknown when the
key is absent in both scopes; the transient scope, scanned after the
persistent one, wins when both scopes carry a boolean value. -/
theorem C3_allocator_disabled (s : ClusterSettings) :
    (∀ v, alookup s.transient allocKey = some v →
      booleanise v = .bool true → allocator_disabled s = "disabled") ∧
    (∀ v, alookup s.transient allocKey = some v →
      booleanise v = .bool false → allocator_disabled s = "enabled") ∧
    (alookup s.persistent allocKey = none →
      alookup s.transient allocKey = none →
      allocator_disabled s = "unknown") ∧
    (∀ v, alookup s.persistent allocKey = some v →
      alookup s.transient allocKey = none →
      (booleanise v = .bool true → allocator_disabled s = "disabled") ∧
      (booleanise v = .bool false → allocator_disabled s = "enabled")) := by
  refine ⟨?_, ?_, ?_, ?_⟩
  · intro v hv hb
    simp [allocator_disabled, allocScan, hv, hb]
  · intro v hv hb
    simp [allocator_disabled, allocScan, hv, hb]
  · intro hp ht
    simp [allocator_disabled, allocScan, hp, ht]
  · intro v hv ht
    constructor
    · intro hb
      simp [allocator_disabled, allocScan, hv, ht, hb]
    · intro hb
      simp [allocator_disabled, allocScan, hv, ht, hb]

/-- C3 witness: the transient-wins conjunct applied at settings carrying
persistent false and transient true for the allocation-disable key. -/
theorem C3_allocator_disabled_witness :
    allocator_disabled
      ⟨[(allocKey, .str "false")], [(allocKey, .str "true")]⟩ =
      "disabled" :=
  (C3_allocator_disabled
    ⟨[(allocKey, .str "false")], [(allocKey, .str "true")]⟩).1
    (.str "true") (by decide) (by decide)

/-- C1 counterexample: an index map whose only observed value is the
default sentinel unknown makes flushing_disabled answer enabled, not
unknown as the claim states. -/
theorem C1_flushing_disabled_counterexample :
    flushing_disabled [("a", [])] = "enabled" ∧
    flushing_disabled [("a", [])] ≠ "unknown" := by
  decide

/-- C1 (amended): flushing_disabled answers some when both true and a
value other than true appear, disabled when the only observed value is
true, enabled when exactly one distinct value is observed and it is not
true (so a lone unknown yields enabled), and unknown when no value is
observed (empty index map) or when several distinct values appear and
none of them is true. -/
theorem C1_flushing_disabled_amended
    (settings : List (String × List (String × PyVal))) :
    ((∃ p ∈ get_index_translog_disable_flush settings, p.2 = .bool true) →
     (∃ q ∈ get_index_translog_disable_flush settings, q.2 ≠ .bool true) →
      flushing_disabled settings = "some") ∧
    (get_index_translog_disable_flush settings ≠ [] →
     (∀ p ∈ get_index_translog_disable_flush settings, p.2 = .bool true) →
      flushing_disabled settings = "disabled") ∧
    (∀ v, v ≠ PyVal.bool true →
      get_index_translog_disable_flush settings ≠ [] →
     (∀ p ∈ get_index_translog_disable_flush settings, p.2 = v) →
      flushing_disabled settings = "enabled") ∧
    (settings = [] → flushing_disabled settings = "unknown") ∧
    ((∀ p ∈ get_index_translog_disable_flush settings, p.2 ≠ .bool true) →
     (∃ p ∈ get_index_translog_disable_flush settings,
      ∃ q ∈ get_index_translog_disable_flush settings, p.2 ≠ q.2) →
      flushing_disabled settings = "unknown") := by
  set D := get_index_translog_disable_flush settings with hD
  set vals := D.map Prod.snd with hvals
  set states := vals.dedup with hstates
  have hfd : flushing_disabled settings =
      if 1 < states.length ∧ PyVal.bool true ∈ states then "some"
      else if states.length = 1 then
        if PyVal.bool true ∈ states then "disabled" else "enabled"
      else "unknown" := rfl
  have hmem : ∀ x : PyVal, x ∈ states ↔ x ∈ vals := by
    intro x
    rw [hstates]
    exact List.mem_dedup
  refine ⟨?_, ?_, ?_, ?_, ?_⟩
  · rintro ⟨p, hp, hp2⟩ ⟨q, hq, hq2⟩
    have htrue : PyVal.bool true ∈ states := by
      rw [hmem, hvals]
      exact List.mem_map.mpr ⟨p, hp, hp2⟩
    have hother : q.2 ∈ states := by
      rw [hmem, hvals]
      exact List.mem_map.mpr ⟨q, hq, rfl⟩
    have hlen : 1 < states.length :=
      one_lt_length_of_mem_ne htrue hother (fun h => hq2 h.symm)
    rw [hfd, if_pos ⟨hlen, htrue⟩]
  · intro hne hall
    have hsingle : states = [PyVal.bool true] := by
      refine list_eq_singleton_of_nodup (hstates ▸ vals.nodup_dedup) ?_ ?_
      · have : PyVal.bool true ∈ states := by
          rw [hmem, hvals]
          obtain ⟨p, hp⟩ := List.exists_mem_of_ne_nil D hne
          exact List.mem_map.mpr ⟨p, hp, hall p hp⟩
        exact List.ne_nil_of_mem this
      · intro x hx
        rw [hmem, hvals] at hx
        obtain ⟨p, hp, hpx⟩ := List.mem_map.mp hx
        rw [← hpx]
        exact hall p hp
    rw [hfd, hsingle]
    simp
  · intro v hv hne hall
    have hsingle : states = [v] := by
      refine list_eq_singleton_of_nodup (hstates ▸ vals.nodup_dedup) ?_ ?_
      · have : v ∈ states := by
          rw [hmem, hvals]
          obtain ⟨p, hp⟩ := List.exists_mem_of_ne_nil D hne
          exact List.mem_map.mpr ⟨p, hp, hall p hp⟩
        exact List.ne_nil_of_mem this
      · intro x hx
        rw [hmem, hvals] at hx
        obtain ⟨p, hp, hpx⟩ := List.mem_map.mp hx
        rw [← hpx]
        exact hall p hp
    rw [hfd, hsingle]
    simp [hv]
    intro h
    exact absurd h.symm hv
  · intro h
    subst h
    decide
  · intro hall ⟨p, hp, q, hq, hpq⟩
    have hnotrue : PyVal.bool true ∉ states := by
      rw [hmem, hvals]
      intro hmm
      obtain ⟨r, hr, hr2⟩ := List.mem_map.mp hmm
      exact hall r hr hr2
    have hlen : states.length ≠ 1 := by
      intro h1
      obtain ⟨x, hx⟩ := List.length_eq_one.mp h1
      have hpx : p.2 = x := by
        have : p.2 ∈ states := by
          rw [hmem, hvals]
          exact List.mem_map.mpr ⟨p, hp, rfl⟩
        rw [hx] at this
        simpa using this
      have hqx : q.2 = x := by
        have : q.2 ∈ states := by
          rw [hmem, hvals]
          exact List.mem_map.mpr ⟨q, hq, rfl⟩
        rw [hx] at this
        simpa using this
      exact hpq (hpx.trans hqx.symm)
    rw [hfd, if_neg (fun h => hnotrue h.2), if_neg hlen]

/-- C1 witness: the some conjunct of the amended characterization applied
at a two-index map carrying true and false. -/
theorem C1_flushing_disabled_amended_witness :
    flushing_disabled
      [("a", [(flushKey, .str "true")]), ("b", [(flushKey, .str "false")])] =
      "some" :=
  (C1_flushing_disabled_amended
    [("a", [(flushKey, .str "true")]), ("b", [(flushKey, .str "false")])]).1
    (by decide) (by decide)

theorem my_node_id_calls_cached (rv : String) (v : List Nat) (n : Nat) :
    my_node_id_calls ⟨some v⟩ rv n = some (⟨some v⟩, 0) := by
  induction n with
  | zero => rfl
  | succ n ih => simp [my_node_id_calls, my_node_id_step, ih]

/-- C4: my_node_id keeps only digits, dots and hyphens of the reported
version (so 1.0.0-rc1 parses to the tuple 1, 0, 0, 1), splits on dots
and hyphens into an integer tuple, queries the modern endpoint exactly
when that tuple compares at least 1, 0, 0 lexicographically, caches the
tuple on first use, and fetches the root endpoint at most once per
connection over any number of calls. -/
theorem C4_my_node_id_version_dispatch :
    parse_version "1.0.0-rc1" = some [1, 0, 0, 1] ∧
    tupleGE [1, 0, 0, 1] [1, 0, 0] = true ∧
    (∀ v, tupleGE v [1, 0, 0] = true →
      my_node_id_path v = "/_nodes/_local") ∧
    (∀ v, tupleGE v [1, 0, 0] = false →
      my_node_id_path v = "/_cluster/nodes/_local") ∧
    (∀ rv v, parse_version rv = some v →
      my_node_id_step ⟨none⟩ rv = some (⟨some v⟩, my_node_id_path v, true)) ∧
    (∀ rv n c k, my_node_id_calls ⟨none⟩ rv n = some (c, k) → k ≤ 1) := by
  refine ⟨by decide, by decide, ?_, ?_, ?_, ?_⟩
  · intro v hv
    simp [my_node_id_path, hv]
  · intro v hv
    simp [my_node_id_path, hv]
  · intro rv v hv
    simp [my_node_id_step, hv]
  · intro rv n c k h
    cases n with
    | zero =>
      rw [my_node_id_calls] at h
      obtain ⟨-, hk⟩ := Option.some.inj h |> Prod.mk.inj
      omega
    | succ n =>
      rw [my_node_id_calls] at h
      cases hpv : parse_version rv with
      | none => simp [my_node_id_step, hpv] at h
      | some v =>
        simp [my_node_id_step, hpv, my_node_id_calls_cached] at h
        obtain ⟨-, hk⟩ := h
        omega

/-- C4 witness: the endpoint-selection conjunct applied at the parsed
tuple of 1.0.0-rc1. -/
theorem C4_my_node_id_version_dispatch_witness :
    my_node_id_path [1, 0, 0, 1] = "/_nodes/_local" :=
  C4_my_node_id_version_dispatch.2.2.1 [1, 0, 0, 1] (by decide)

theorem nontruncating_zip_length {α β : Type} (a : List α) (b : List β) :
    (nontruncating_zip a b).length = max a.length b.length := by
  induction a generalizing b with
  | nil =>
    induction b with
    | nil => simp [nontruncating_zip]
    | cons y ys ihb => simp [nontruncating_zip, ihb]
  | cons x xs iha =>
    cases b with
    | nil =>
      simp [nontruncating_zip, iha []]
    | cons y ys =>
      simp [nontruncating_zip, iha ys]
      omega

theorem update_widths_length (a b : List Nat) :
    (update_widths a b).length = max a.length b.length := by
  simp [update_widths, nontruncating_zip_length]

theorem update_widths_getD (a b : List Nat) (i : Nat) :
    (update_widths a b).getD i 0 = max (a.getD i 0) (b.getD i 0) := by
  induction a generalizing b i with
  | nil =>
    induction b generalizing i with
    | nil => simp [update_widths, nontruncating_zip]
    | cons y ys ihb =>
      cases i with
      | zero => simp [update_widths, nontruncating_zip, pymax]
      | succ j =>
        simpa [update_widths, nontruncating_zip, pymax] using ihb j
  | cons x xs iha =>
    cases b with
    | nil =>
      cases i with
      | zero => simp [update_widths, nontruncating_zip, pymax]
      | succ j =>
        simpa [update_widths, nontruncating_zip, pymax] using iha [] j
    | cons y ys =>
      cases i with
      | zero => simp [update_widths, nontruncating_zip, pymax]
      | succ j =>
        simpa [update_widths, nontruncating_zip, pymax] using iha ys j

theorem widthsOk_row (tp : TabularPrinter) (h : WidthsOk tp)
    (r : List String) : WidthsOk (tp.row r) := by
  obtain ⟨hmax, hrows⟩ := h
  constructor
  · simp only [TabularPrinter.row, update_widths_length]
    calc max tp.max_columns r.length
        ≤ max tp.column_widths.length (r.map String.length).length := by
          exact max_le_max hmax (by simp)
      _ = _ := rfl
  · intro r2 hr2
    simp only [TabularPrinter.row, List.mem_append, List.mem_singleton]
      at hr2
    cases hr2 with
    | inl hold =>
      obtain ⟨hlen, hget⟩ := hrows r2 hold
      constructor
      · simp only [TabularPrinter.row, update_widths_length]
        exact hlen.trans (le_max_left _ _)
      · intro i
        simp only [TabularPrinter.row, update_widths_getD]
        exact (hget i).trans (le_max_left _ _)
    | inr hnew =>
      subst hnew
      constructor
      · simp only [TabularPrinter.row, update_widths_length]
        calc r2.length = (r2.map String.length).length := by simp
          _ ≤ _ := le_max_right _ _
      · intro i
        simp only [TabularPrinter.row, update_widths_getD]
        exact le_max_right _ _

theorem widthsOk_addRows (rss : List (List String)) (tp : TabularPrinter)
    (h : WidthsOk tp) : WidthsOk (addRows tp rss) := by
  induction rss generalizing tp with
  | nil => exact h
  | cons r rest ih => exact ih (tp.row r) (widthsOk_row tp h r)

theorem addRows_rows (rss : List (List String)) (tp : TabularPrinter) :
    (addRows tp rss).rows = tp.rows ++ rss := by
  induction rss generalizing tp with
  | nil => simp [addRows]
  | cons r rest ih =>
    simp [addRows] at ih ⊢
    rw [ih (tp.row r)]
    simp [TabularPrinter.row]

theorem mapLen_getD (r : List String) (i : Nat) (h : i < r.length) :
    (r.map String.length).getD i 0 = (r.get ⟨i, h⟩).length := by
  induction r generalizing i with
  | nil => cases h
  | cons x xs ih =>
    cases i with
    | zero => rfl
    | succ j => exact ih j (Nat.lt_of_succ_lt_succ h)

/-- C6: after any sequence of row calls, the widths sequence is at least
as long as the column count of every row added and the tracked maximum,
the width at index i dominates the text length of every cell seen at
index i, and the width update is a length-preserving zip in which a
position missing from either side contributes zero width, so differing
column counts neither truncate widths nor fail. -/
theorem C6_row_widths_invariant (margin separator : String)
    (rss : List (List String)) :
    (∀ r ∈ rss, r.length ≤ (addRows (TabularPrinter.init margin separator) rss).column_widths.length) ∧
    (∀ r ∈ rss, ∀ i, ∀ h : i < r.length,
      (r.get ⟨i, h⟩).length ≤ (addRows (TabularPrinter.init margin separator) rss).column_widths.getD i 0) ∧
    (addRows (TabularPrinter.init margin separator) rss).max_columns ≤
      (addRows (TabularPrinter.init margin separator) rss).column_widths.length ∧
    (∀ a b : List Nat,
      (update_widths a b).length = max a.length b.length ∧
      ∀ i, (update_widths a b).getD i 0 = max (a.getD i 0) (b.getD i 0)) := by
  have hinv : WidthsOk (addRows (TabularPrinter.init margin separator) rss) :=
    widthsOk_addRows rss _ (by constructor <;> simp [TabularPrinter.init])
  obtain ⟨hmax, hrows⟩ := hinv
  have hmem : ∀ r ∈ rss,
      r ∈ (addRows (TabularPrinter.init margin separator) rss).rows := by
    intro r hr
    rw [addRows_rows]
    simp [TabularPrinter.init, hr]
  refine ⟨?_, ?_, hmax, ?_⟩
  · intro r hr
    exact (hrows r (hmem r hr)).1
  · intro r hr i h
    rw [← mapLen_getD r i h]
    exact (hrows r (hmem r hr)).2 i
  · intro a b
    exact ⟨update_widths_length a b, update_widths_getD a b⟩

/-- C6 witness: the cell-width conjunct applied at the rows alice, 30
then bob, at the first cell of the first row. -/
theorem C6_row_widths_invariant_witness :
    ((["alice", "30"] : List String).get ⟨0, by decide⟩).length ≤
      (addRows (TabularPrinter.init DEFAULT_MARGIN DEFAULT_SEPARATOR) [["alice", "30"], ["bob"]]).column_widths.getD 0 0 :=
  (C6_row_widths_invariant DEFAULT_MARGIN DEFAULT_SEPARATOR
    [["alice", "30"], ["bob"]]).2.1 ["alice", "30"] (by simp) 0 (by decide)

theorem printSoftspaceAfter_sep (x : String) :
    printSoftspaceAfter (x ++ "  ") = true := by
  have hdata : (x ++ "  ").data = x.data ++ [' ', ' '] := String.data_append x "  "
  simp [printSoftspaceAfter, hdata, List.reverse_append, pyIsspace]

theorem outputRow_loop (widths : List Nat) (row : List String) (i : Nat)
    (st : OutStream) :
    (List.enumFrom i row).foldl
      (fun st2 p =>
        printItem st2 (ljust p.2 (widths.getD p.1 0) ++ "  "))
      st =
      ⟨st.content ++ renderCols widths "  " st.softspace i row,
        if row = [] then st.softspace else true⟩ := by
  induction row generalizing i st with
  | nil => simp [List.enumFrom, renderCols]
  | cons c cs ih =>
    simp only [List.enumFrom, List.foldl_cons]
    rw [ih (i + 1)]
    simp only [printItem, printSoftspaceAfter_sep, renderCols]
    cases hss : st.softspace with
    | false =>
      simp [String.append_assoc]
    | true =>
      simp [String.append_assoc]

theorem output_content_loop (margin : String) (widths : List Nat)
    (rows : List (List String)) (st : OutStream)
    (hss : st.softspace = false) :
    rows.foldl
      (fun st2 row =>
        printNewline (outputRow widths "  " (writeStr st2 margin) row))
      st =
      ⟨st.content ++
        joinAll (rows.map (fun row =>
          margin ++ (renderCols widths "  " false 0 row ++ "\n"))),
        false⟩ := by
  induction rows generalizing st with
  | nil =>
    cases st with
    | mk content softspace =>
      simp at hss
      simp [hss, joinAll]
  | cons r rest ih =>
    simp only [List.foldl_cons]
    have hrow : printNewline (outputRow widths "  " (writeStr st margin) r) =
        ⟨st.content ++ margin ++ renderCols widths "  " false 0 r ++ "\n",
          false⟩ := by
      rw [outputRow, List.enum]
      rw [outputRow_loop widths r 0 (writeStr st margin)]
      simp [writeStr, hss, printNewline]
    rw [hrow]
    rw [ih ⟨st.content ++ margin ++ renderCols widths "  " false 0 r ++
      "\n", false⟩ rfl]
    simp [joinAll, String.append_assoc]

/-- C7 counterexample: on the rows alice, 30 then bob with the default
margin and separator, the stream written by output differs from the
rendering the claim describes, because the print statement emits one
extra soft space before every column after the first. -/
theorem C7_output_counterexample :
    (TabularPrinter.output
        (addRows (TabularPrinter.init DEFAULT_MARGIN DEFAULT_SEPARATOR)
          [["alice", "30"], ["bob"]])
        ⟨"", false⟩).content =
      "    alice   30  \n    bob    \n" ∧
    output_spec_render
        (addRows (TabularPrinter.init DEFAULT_MARGIN DEFAULT_SEPARATOR)
          [["alice", "30"], ["bob"]]) =
      "    alice  30  \n    bob    \n" ∧
    (TabularPrinter.output
        (addRows (TabularPrinter.init DEFAULT_MARGIN DEFAULT_SEPARATOR)
          [["alice", "30"], ["bob"]])
        ⟨"", false⟩).content ≠
      output_spec_render
        (addRows (TabularPrinter.init DEFAULT_MARGIN DEFAULT_SEPARATOR)
          [["alice", "30"], ["bob"]]) := by
  refine ⟨by decide, by decide, by decide⟩

/-- C7 (amended): with the default two-space separator, output writes
per buffered row the margin, then each column left-justified and padded
to the final maximum width of that column followed by the separator, with a
single extra space (the print-statement soft space) before every column
after the first, then a newline after the last column; rows alice, 30
then bob align column one to width five, pad column two only where
present, and no row causes a column-count error. -/
theorem C7_output_amended (tp : TabularPrinter)
    (hsep : tp.separator = "  ") (st : OutStream)
    (hss : st.softspace = false) :
    (tp.output st).content = st.content ++ renderTable tp ∧
    (TabularPrinter.output
        (addRows (TabularPrinter.init DEFAULT_MARGIN DEFAULT_SEPARATOR)
          [["alice", "30"], ["bob"]])
        ⟨"", false⟩).content =
      "    alice   30  \n    bob    \n" := by
  constructor
  · rw [TabularPrinter.output, renderTable, hsep]
    rw [output_content_loop tp.margin tp.column_widths tp.rows st hss]
  · decide

/-- C7 witness: the amended rendering equation applied at the printer
holding the rows alice, 30 then bob, starting from an empty stream. -/
theorem C7_output_amended_witness :
    (TabularPrinter.output
        (addRows (TabularPrinter.init DEFAULT_MARGIN DEFAULT_SEPARATOR)
          [["alice", "30"], ["bob"]])
        ⟨"", false⟩).content =
      "" ++ renderTable
        (addRows (TabularPrinter.init DEFAULT_MARGIN DEFAULT_SEPARATOR)
          [["alice", "30"], ["bob"]]) :=
  (C7_output_amended
    (addRows (TabularPrinter.init DEFAULT_MARGIN DEFAULT_SEPARATOR)
      [["alice", "30"], ["bob"]])
    rfl ⟨"", false⟩ rfl).1

theorem log1000Fuel_bounds (fuel n : Nat) (hpos : 0 < n)
    (hfuel : n ≤ fuel) :
    1000 ^ log1000Fuel fuel n ≤ n ∧ n < 1000 ^ (log1000Fuel fuel n + 1) := by
  induction fuel generalizing n with
  | zero => omega
  | succ fuel ih =>
    rw [log1000Fuel]
    by_cases hsmall : n < 1000
    · simp [hsmall]
      omega
    · simp only [hsmall, if_false]
      have hm_pos : 0 < n / 1000 := Nat.div_pos (by omega) (by omega)
      have hm_lt : n / 1000 < n := Nat.div_lt_self hpos (by omega)
      obtain ⟨hlo, hhi⟩ := ih (n / 1000) hm_pos (by omega)
      constructor
      · calc 1000 ^ (log1000Fuel fuel (n / 1000) + 1)
            = 1000 ^ log1000Fuel fuel (n / 1000) * 1000 := by
              rw [Nat.pow_succ]
          _ ≤ n / 1000 * 1000 := Nat.mul_le_mul_right 1000 hlo
          _ ≤ n := Nat.div_mul_le_self n 1000
      · have : n < 1000 ^ (log1000Fuel fuel (n / 1000) + 1) * 1000 :=
          (Nat.div_lt_iff_lt_mul (by omega)).mp hhi
        calc n < 1000 ^ (log1000Fuel fuel (n / 1000) + 1) * 1000 := this
          _ = 1000 ^ (log1000Fuel fuel (n / 1000) + 1 + 1) := by
            ring

theorem log1000_bounds (n : Nat) (hpos : 0 < n) :
    1000 ^ log1000 n ≤ n ∧ n < 1000 ^ (log1000 n + 1) :=
  log1000Fuel_bounds n n hpos (le_refl n)

/-- C9: fmt_bytes at the default precision 2 special-cases zero to the
literal answer and scales a positive in-range count by the largest
power of 1000 not exceeding it, rendering the exact scaled value to two
decimals with the matching unit appended; in particular 0, 1000,
1500000 and 999 render as the claim lists. -/
theorem C9_fmt_bytes (n : Nat) (hpos : 0 < n) (hrange : n < 1000 ^ 6) :
    fmt_bytes 0 2 = some "0 bytes" ∧
    fmt_bytes 1000 2 = some "1.00 KB" ∧
    fmt_bytes 1500000 2 = some "1.50 MB" ∧
    fmt_bytes 999 2 = some "999.00 bytes" ∧
    1000 ^ log1000 n ≤ n ∧ n < 1000 ^ (log1000 n + 1) ∧
    fmt_bytes n 2 =
      some (fmtFixed 2 n (1000 ^ log1000 n) ++ " " ++
        UNITS.getD (log1000 n) "") := by
  obtain ⟨hlo, hhi⟩ := log1000_bounds n hpos
  refine ⟨by decide, by decide, by decide, by decide, hlo, hhi, ?_⟩
  have hlog : log1000 n < 6 := by
    by_contra hge
    have : 1000 ^ 6 ≤ 1000 ^ log1000 n :=
      Nat.pow_le_pow_right (by omega) (by omega)
    omega
  have hget : UNITS.get? (log1000 n) = some (UNITS.getD (log1000 n) "") := by
    interval_cases h : log1000 n <;> rfl
  rw [fmt_bytes, if_neg (by omega), hget]

/-- C9 witness: the in-range conjuncts applied at the count 1500000. -/
theorem C9_fmt_bytes_witness :
    fmt_bytes 1500000 2 =
      some (fmtFixed 2 1500000 (1000 ^ log1000 1500000) ++ " " ++
        UNITS.getD (log1000 1500000) "") :=
  (C9_fmt_bytes 1500000 (by decide) (by norm_num)).2.2.2.2.2.2

/-- C8: booleanise renders any value to text and matches it
case-insensitively against "true" and "false", returning the boolean on a
match and the original value unchanged otherwise; in particular
booleanise "TRUE" is True, booleanise "false" is False, booleanise
"maybe" is "maybe", and booleanise True is True. -/
theorem C8_booleanise_spec :
    (∀ v : PyVal, pyLower (pystr v) = "true" → booleanise v = .bool true) ∧
    (∀ v : PyVal, pyLower (pystr v) = "false" → booleanise v = .bool false) ∧
    (∀ v : PyVal, pyLower (pystr v) ≠ "true" → pyLower (pystr v) ≠ "false" →
      booleanise v = v) ∧
    booleanise (.str "TRUE") = .bool true ∧
    booleanise (.str "false") = .bool false ∧
    booleanise (.str "maybe") = .str "maybe" ∧
    booleanise (.bool true) = .bool true := by
  refine ⟨?_, ?_, ?_, by decide, by decide, by decide, by decide⟩
  · intro v h
    simp [booleanise, h]
  · intro v h
    simp [booleanise, h]
  · intro v h1 h2
    simp [booleanise, h1, h2]

/-- C8 witness: the case-insensitive match conjunct applied at the
concrete input "tRuE". -/
theorem C8_booleanise_spec_witness :
    booleanise (.str "tRuE") = .bool true :=
  C8_booleanise_spec.1 (.str "tRuE") (by decide)

/-- C10: booleanise is idempotent; True and False are fixed points, and a
value returned unchanged is unchanged again on a second application. -/
theorem C10_booleanise_idempotent (v : PyVal) :
    booleanise (booleanise v) = booleanise v := by
  by_cases h1 : pyLower (pystr v) = "true"
  · have hv : booleanise v = .bool true := by simp [booleanise, h1]
    rw [hv]
    decide
  · by_cases h2 : pyLower (pystr v) = "false"
    · have hv : booleanise v = .bool false := by simp [booleanise, h1, h2]
      rw [hv]
      decide
    · have hv : booleanise v = v := by simp [booleanise, h1, h2]
      rw [hv, hv]

end ESAdmin
